import Mathlib

/-!
Verification of the star-schema transformation in
`dags/src/transformation_task.py` (function `transform_data`).

The pandas pipeline is embedded shallowly as pure list functions:
a DataFrame is a `List` of rows in row order, `drop_duplicates` is
`dedupBy` (keep the first occurrence of each key, preserve order),
`reset_index` + `index + 1` is `List.enum` with `i + 1`, and a pandas
left merge is `leftMerge` (left rows in order; one output row per
matching right row, right order preserved; an unmatched left row is
kept once with `none` in the right-hand columns, pandas NaN).
-/

namespace SportsStore

/-- Input record of `raw.sales_raw` after the rename/lower-casing step
(lines 46-62 of transformation_task.py): column names are already the
snake_case ones.  Name-like columns are strings, measures are integers
(the code passes them through untouched), the invoice date is kept as
an opaque coerced value. -/
structure Row where
  retailer : String
  retailer_id : String
  invoice_date : String
  region : String
  state : String
  city : String
  product : String
  price_per_unit : Int
  units_sold : Int
  total_sales : Int
  operating_profit : Int
  operating_margin : Int
  sales_method : String
deriving Repr, DecidableEq

/-- Worker for `dedupBy`: `seen` is the set of key values already kept. -/
def dedupByAux {α β : Type} [DecidableEq β] (key : α → β) (seen : List β) :
    List α → List α
  | [] => []
  | a :: as =>
      if key a ∈ seen then dedupByAux key seen as
      else a :: dedupByAux key (key a :: seen) as

/-- pandas `drop_duplicates(subset=key)` with the default `keep='first'`:
keep the first row carrying each key value, preserve row order. -/
def dedupBy {α β : Type} [DecidableEq β] (key : α → β) (l : List α) : List α :=
  dedupByAux key [] l

/-- pandas `L.merge(R, how='left')`: for each left row in order, emit one
combined row per matching right row (right order preserved); a left row
with no match is kept once, with the right-hand columns missing. -/
def leftMerge {α β γ : Type} (L : List α) (R : List β)
    (m : α → β → Bool) (comb : α → β → γ) (miss : α → γ) : List γ :=
  L.flatMap fun a =>
    if (R.filter (m a)).isEmpty then [miss a] else (R.filter (m a)).map (comb a)

/-- Row of the `retailer` dimension (line 72-73): de-duplicated
(retailer_id, retailer) pairs, no synthetic key. -/
structure RetailerRow where
  retailer_id : String
  retailer_name : String
deriving Repr, DecidableEq

/-- Row of the `region` dimension (lines 76-78). -/
structure RegionRow where
  region_name : String
  region_id : Nat
deriving Repr, DecidableEq

/-- Row of the `state` dimension (lines 81-86); `region_id` is an Option
because it comes in through a left merge (NaN when unmatched). -/
structure StateRow where
  state_name : String
  region_id : Option Nat
  state_id : Nat
deriving Repr, DecidableEq

/-- Row of the `city` dimension (lines 89-94). -/
structure CityRow where
  city_name : String
  state_id : Option Nat
  city_id : Nat
deriving Repr, DecidableEq

/-- Row of the `product` dimension (lines 97-99). -/
structure ProductRow where
  product_name : String
  price_per_unit : Int
  product_id : Nat
deriving Repr, DecidableEq

/-- Row of the `sales_method` dimension (lines 102-104). -/
structure MethodRow where
  method_name : String
  sales_method_id : Nat
deriving Repr, DecidableEq

/-- Line 72-73: `df[['retailer_id', 'retailer']].drop_duplicates()`,
renamed to `retailer_name`. -/
def dim_retailer (df : List Row) : List RetailerRow :=
  (dedupBy id (df.map fun r => (r.retailer_id, r.retailer))).map fun p =>
    { retailer_id := p.1, retailer_name := p.2 }

/-- Lines 76-78: `df[['region']].drop_duplicates().reset_index(drop=True)`
with `region_id = index + 1`. -/
def dim_region (df : List Row) : List RegionRow :=
  ((dedupBy id (df.map fun r => r.region)).enum).map fun p =>
    { region_name := p.2, region_id := p.1 + 1 }

/-- Line 81: `df[['state', 'region']].drop_duplicates()`. -/
def df_state_prep (df : List Row) : List (String × String) :=
  dedupBy id (df.map fun r => (r.state, r.region))

/-- Line 82: left merge of the (state, region) pairs with `dim_region`
on `region == region_name`; only the columns kept on line 84
(`state`, `region_id`) are retained. -/
def statePrepMerged (df : List Row) : List (String × Option Nat) :=
  leftMerge (df_state_prep df) (dim_region df)
    (fun p d => p.2 == d.region_name)
    (fun p d => (p.1, some d.region_id))
    (fun p => (p.1, none))

/-- Lines 84-86: de-duplicate on (state, region_id), reset the index and
assign `state_id = index + 1`. -/
def dim_state (df : List Row) : List StateRow :=
  ((dedupBy id (statePrepMerged df)).enum).map fun q =>
    { state_name := q.2.1, region_id := q.2.2, state_id := q.1 + 1 }

/-- Lines 89-90: `df[['city', 'state']].drop_duplicates()` left-merged
with `dim_state` on `state == state_name` (the state NAME alone, not the
(state, region) pair); columns kept are `city`, `state_id`. -/
def cityPrepMerged (df : List Row) : List (String × Option Nat) :=
  leftMerge (dedupBy id (df.map fun r => (r.city, r.state))) (dim_state df)
    (fun p d => p.2 == d.state_name)
    (fun p d => (p.1, some d.state_id))
    (fun p => (p.1, none))

/-- Lines 92-94: de-duplicate on (city, state_id), reset the index and
assign `city_id = index + 1`. -/
def dim_city (df : List Row) : List CityRow :=
  ((dedupBy id (cityPrepMerged df)).enum).map fun q =>
    { city_name := q.2.1, state_id := q.2.2, city_id := q.1 + 1 }

/-- Lines 97-99: `drop_duplicates(subset=['product'])` keeps the first
row (hence the first price) for each product name; `product_id = index + 1`. -/
def dim_product (df : List Row) : List ProductRow :=
  ((dedupBy Prod.fst (df.map fun r => (r.product, r.price_per_unit))).enum).map fun q =>
    { product_name := q.2.1, price_per_unit := q.2.2, product_id := q.1 + 1 }

/-- Lines 102-104: distinct sales methods, `sales_method_id = index + 1`. -/
def dim_sales_method (df : List Row) : List MethodRow :=
  ((dedupBy id (df.map fun r => r.sales_method)).enum).map fun q =>
    { method_name := q.2, sales_method_id := q.1 + 1 }

/-- Fact frame after the line-112 merge with `dim_state` on
`state == state_name` (state name ALONE): the original row plus the
`state_id` and `region_id` columns brought in from `dim_state`. -/
structure F1 where
  row : Row
  state_id : Option Nat
  region_id : Option Nat
deriving Repr, DecidableEq

/-- Fact frame after the line-113 merge with `dim_city` on
`['city', 'state_id']`. -/
structure F2 where
  base : F1
  city_id : Option Nat
deriving Repr, DecidableEq

/-- Fact frame after the line-116 merge with `dim_product` on
`product == product_name`. -/
structure F3 where
  base : F2
  product_id : Option Nat
deriving Repr, DecidableEq

/-- Fact frame after the line-119 merge with `dim_sales_method` on
`sales_method == method_name`. -/
structure F4 where
  base : F3
  sales_method_id : Option Nat
deriving Repr, DecidableEq

def F2.origRow (x : F2) : Row := x.base.row

def F3.origRow (x : F3) : Row := x.base.base.row

def F4.origRow (x : F4) : Row := x.base.base.base.row

/-- Join key of the line-112 merge: the state name alone. -/
def stateKey (r : Row) (d : StateRow) : Bool := r.state == d.state_name

/-- Join key of the line-113 merge: city name and state surrogate
(pandas matches NaN merge keys to each other, hence plain Option
equality). -/
def cityKey (x : F1) (d : CityRow) : Bool :=
  x.row.city == d.city_name && x.state_id == d.state_id

/-- Join key of the line-116 merge: the product name. -/
def productKey (x : F2) (d : ProductRow) : Bool :=
  x.base.row.product == d.product_name

/-- Join key of the line-119 merge: the sales-method name. -/
def methodKey (x : F3) (d : MethodRow) : Bool :=
  x.base.base.row.sales_method == d.method_name

/-- Line 112: `fact_df.merge(dim_state, left_on='state',
right_on='state_name', how='left')`. -/
def fact1 (df : List Row) : List F1 :=
  leftMerge df (dim_state df) stateKey
    (fun r d => { row := r, state_id := some d.state_id, region_id := d.region_id })
    (fun r => { row := r, state_id := none, region_id := none })

/-- Line 113: merge with `dim_city` on `['city', 'state_id']`. -/
def fact2 (df : List Row) : List F2 :=
  leftMerge (fact1 df) (dim_city df) cityKey
    (fun x d => { base := x, city_id := some d.city_id })
    (fun x => { base := x, city_id := none })

/-- Line 116: merge with `dim_product` on the product name. -/
def fact3 (df : List Row) : List F3 :=
  leftMerge (fact2 df) (dim_product df) productKey
    (fun x d => { base := x, product_id := some d.product_id })
    (fun x => { base := x, product_id := none })

/-- Line 119: merge with `dim_sales_method` on the method name. -/
def fact4 (df : List Row) : List F4 :=
  leftMerge (fact3 df) (dim_sales_method df) methodKey
    (fun x d => { base := x, sales_method_id := some d.sales_method_id })
    (fun x => { base := x, sales_method_id := none })

/-- Row of the `sales_transaction` fact table as selected on
lines 124-144. -/
structure FactRow where
  transaction_id : Nat
  retailer_id : String
  invoice_date : String
  city_id : Option Nat
  product_id : Option Nat
  units_sold : Int
  total_sales : Int
  operating_profit : Int
  operating_margin : Int
  sales_method_id : Option Nat
  region_id : Option Nat
deriving Repr, DecidableEq

/-- Lines 124-144: select the fact columns and add
`transaction_id = index + 1`, where the index is the 0-based position in
the merged fact frame (pandas merges reset the index to a fresh range). -/
def fact_table (df : List Row) : List FactRow :=
  ((fact4 df).enum).map fun q =>
    { transaction_id := q.1 + 1
      retailer_id := q.2.origRow.retailer_id
      invoice_date := q.2.origRow.invoice_date
      city_id := q.2.base.base.city_id
      product_id := q.2.base.product_id
      units_sold := q.2.origRow.units_sold
      total_sales := q.2.origRow.total_sales
      operating_profit := q.2.origRow.operating_profit
      operating_margin := q.2.origRow.operating_margin
      sales_method_id := q.2.sales_method_id
      region_id := q.2.base.base.base.region_id }

/-- All seven output tables of one transformation run, in load order
(lines 167-187). -/
structure Tables where
  retailer : List RetailerRow
  region : List RegionRow
  state : List StateRow
  city : List CityRow
  product : List ProductRow
  sales_method : List MethodRow
  sales_transaction : List FactRow
deriving Repr, DecidableEq

/-- The full normalization step (lines 68-144) as one pure function of
the cleaned input frame. -/
def buildTables (df : List Row) : Tables :=
  { retailer := dim_retailer df
    region := dim_region df
    state := dim_state df
    city := dim_city df
    product := dim_product df
    sales_method := dim_sales_method df
    sales_transaction := fact_table df }

/-- Hypothesis of the row-count claims, following the invariant wording
of the spec: every foreign-key lookup a fact row performs matches
exactly one dimension row, at each of the four merges of lines 112-119
in the order the code performs them. -/
def uniqueResolution (df : List Row) : Prop :=
  (∀ r ∈ df, ((dim_state df).filter (stateKey r)).length = 1) ∧
  (∀ x ∈ fact1 df, ((dim_city df).filter (cityKey x)).length = 1) ∧
  (∀ x ∈ fact2 df, ((dim_product df).filter (productKey x)).length = 1) ∧
  (∀ x ∈ fact3 df, ((dim_sales_method df).filter (methodKey x)).length = 1)

instance (df : List Row) : Decidable (uniqueResolution df) := by
  unfold uniqueResolution; infer_instance

/-- The first `price_per_unit` the input carries for a given product
name: the price of the first row mentioning the product (the row
`drop_duplicates(subset=['product'], keep='first')` retains). -/
def firstPriceOf (df : List Row) (n : String) : Option Int :=
  (df.find? fun r => r.product == n).map fun r => r.price_per_unit

/-- Data-quality warnings a run emits.  The source logs only info lines
and caught-exception error lines; it contains no `logger.warning` call
and the dimension builds (lines 72-104) emit nothing per conflicting
natural key, so the warning list of a run is empty for every input. -/
def dataQualityWarnings (_df : List Row) : List String := []

/-- Column rename map of lines 46-60 (note the source's `Operating Proft`
spelling on the left-hand side). -/
def renamePairs : List (String × String) :=
  [("Retailer", "retailer"), ("Retailer ID", "retailer_id"),
   ("Invoice Date", "invoice_date"), ("Region", "region"),
   ("State", "state"), ("City", "city"), ("Product", "product"),
   ("Price per Unit", "price_per_unit"), ("Units Sold", "units_sold"),
   ("Total Sales", "total_sales"), ("Operating Proft", "operating_profit"),
   ("Operating Margin", "operating_margin"), ("Sales Method", "sales_method")]

/-- Line 61: `df.rename(columns=rename_map)` on one column name. -/
def renameCol (c : String) : String :=
  match renamePairs.find? fun p => p.1 == c with
  | some p => p.2
  | none => c

/-- Python `str.strip()` on a character list: drop whitespace from both
ends. -/
def stripChars (l : List Char) : List Char :=
  ((l.dropWhile Char.isWhitespace).reverse.dropWhile Char.isWhitespace).reverse

/-- Line 62: `c.strip().lower().replace(" ", "_")`, written out over the
character list. -/
def normalizeCol (c : String) : String :=
  String.mk (((stripChars c.data).map Char.toLower).map
    fun ch => if ch = ' ' then '_' else ch)

/-- Column names of the frame after lines 61-62. -/
def effectiveCols (cols : List String) : List String :=
  (cols.map renameCol).map normalizeCol

/-- Every column the transformation reads after the cleaning step: the
date coercion on line 65 and the dimension and fact builds on
lines 72-144 each raise a KeyError if their column is absent. -/
def requiredCols : List String :=
  ["retailer", "retailer_id", "invoice_date", "region", "state", "city",
   "product", "price_per_unit", "units_sold", "total_sales",
   "operating_profit", "operating_margin", "sales_method"]

/-- Error taxonomy of the run, named after the spec's section 7 classes
for the failures the code can raise (a KeyError or a
`pd.to_datetime` parse error for the schema case). -/
inductive PipelineError where
  | sourceUnavailable
  | schemaMismatch
  | sinkWriteFailure
deriving Repr, DecidableEq

/-- Raw frame handed to the transformation: its column headers as read
from `raw.sales_raw`, its records (well-typed view, meaningful once the
schema check passes), and whether every `invoice_date` value is
coercible by `pd.to_datetime` (line 65 raises otherwise). -/
structure RawFrame where
  cols : List String
  rows : List Row
  datesCoercible : Bool
deriving Repr, DecidableEq

/-- Body of `transform_data` from the cleaning step to the end of the
fact build: if after the rename of lines 61-62 some required column is
absent, or the date column does not coerce, the first access to the
missing piece (line 65 onwards) raises — before any table is built and
before any `load_table` call (the loads start at line 167); otherwise the
seven tables are built.  The raised failure is the class the spec calls
SchemaMismatch. -/
def runTransform (f : RawFrame) : Except PipelineError Tables :=
  if (requiredCols.all fun c => (effectiveCols f.cols).contains c) && f.datesCoercible then
    Except.ok (buildTables f.rows)
  else
    Except.error PipelineError.schemaMismatch

/-- Destination tables written by a run: all seven (lines 167-187) when
the body reaches the load section, none when it raised earlier. -/
def writtenTables (f : RawFrame) : List String :=
  match runTransform f with
  | Except.ok _ => ["retailer", "region", "state", "city", "product",
                    "sales_method", "sales_transaction"]
  | Except.error _ => []

/-- Caller-observable outcome of one `transform_data()` call. -/
structure EntryOutcome where
  propagated : Option PipelineError
  returnValue : Option Tables
  logged : List PipelineError
  engineDisposed : Bool
deriving Repr, DecidableEq

/-- try/except/finally wrapper of lines 31-197, over an arbitrary body
outcome: both except blocks (SQLAlchemyError on 191, every other
Exception on 193) catch and log; the function has no return statement,
so the caller always gets None and never an exception; the finally block
(195-197) disposes the engine created on line 34. -/
def transform_data_entry (body : Except PipelineError Tables) : EntryOutcome :=
  match body with
  | Except.ok _ =>
      { propagated := none, returnValue := none, logged := [],
        engineDisposed := true }
  | Except.error e =>
      { propagated := none, returnValue := none, logged := [e],
        engineDisposed := true }

deriving instance DecidableEq for Except

/-- Concrete input row builder for the example inputs below. -/
def mkRow (rt rtid reg st ci pr : String) (price us : Int) (sm : String) : Row :=
  { retailer := rt, retailer_id := rtid, invoice_date := "2020-01-01",
    region := reg, state := st, city := ci, product := pr,
    price_per_unit := price, units_sold := us, total_sales := 0,
    operating_profit := 0, operating_margin := 0, sales_method := sm }

/-- The three-row example input of the spec's section 8. -/
def ex3 : List Row :=
  [ mkRow "A" "1" "East" "NY" "NYC" "Shoes" 50 10 "Online",
    mkRow "A" "1" "East" "NY" "NYC" "Hats" 20 5 "Online",
    mkRow "B" "2" "West" "CA" "LA" "Shoes" 50 8 "Outlet" ]

/-- Two rows carrying the same state name in two different regions. -/
def exDup : List Row :=
  [ mkRow "A" "1" "East" "Springfield" "Alpha" "Shoes" 50 10 "Online",
    mkRow "B" "2" "West" "Springfield" "Beta" "Hats" 20 5 "Outlet" ]

/-- Two rows carrying the same product name at two different prices. -/
def exConflict : List Row :=
  [ mkRow "A" "1" "East" "NY" "NYC" "Shoes" 50 10 "Online",
    mkRow "A" "1" "East" "NY" "NYC" "Shoes" 55 5 "Online" ]

/-- Two rows carrying the same retailer id under two different names. -/
def exRetailer : List Row :=
  [ mkRow "Foot Locker" "1" "East" "NY" "NYC" "Shoes" 50 10 "Online",
    mkRow "FootLocker" "1" "East" "NY" "NYC" "Hats" 20 5 "Online" ]

/-- Raw frame whose header row misses most required columns. -/
def rawMissing : RawFrame :=
  { cols := ["Retailer", "Region"], rows := [], datesCoercible := true }

/-- First row of `fact_table ex3`, written out. -/
def fr0 : FactRow :=
  { transaction_id := 1, retailer_id := "1", invoice_date := "2020-01-01",
    city_id := some 1, product_id := some 1, units_sold := 10,
    total_sales := 0, operating_profit := 0, operating_margin := 0,
    sales_method_id := some 1, region_id := some 1 }

/-- Region surrogate the line-82 merge attaches to a region name. -/
def regionIdOf (df : List Row) (reg : String) : Option Nat :=
  ((dim_region df).find? fun d => reg == d.region_name).map fun d => d.region_id

/-- Passthrough columns of one input row, used to compare input and fact
rows positionally. -/
def rowProj (r : Row) : String × String × Int × Int × Int × Int :=
  (r.retailer_id, r.invoice_date, r.units_sold, r.total_sales,
   r.operating_profit, r.operating_margin)

/-- The same passthrough columns selected from a fact row. -/
def factProj (fr : FactRow) : String × String × Int × Int × Int × Int :=
  (fr.retailer_id, fr.invoice_date, fr.units_sold, fr.total_sales,
   fr.operating_profit, fr.operating_margin)

/-! ### Generic lemmas: `dedupByAux` (pandas drop_duplicates) -/

theorem mem_of_mem_dedupByAux {α β : Type} [DecidableEq β] {key : α → β}
    {seen : List β} {l : List α} {x : α}
    (h : x ∈ dedupByAux key seen l) : x ∈ l := by
  induction l generalizing seen with
  | nil => simp [dedupByAux] at h
  | cons a as ih =>
    simp only [dedupByAux] at h
    split at h
    · exact List.mem_cons_of_mem _ (ih h)
    · rcases List.mem_cons.mp h with h | h
      · exact h ▸ List.mem_cons_self _ _
      · exact List.mem_cons_of_mem _ (ih h)

theorem key_not_seen_of_mem_dedupByAux {α β : Type} [DecidableEq β] {key : α → β}
    {seen : List β} {l : List α} {x : α}
    (h : x ∈ dedupByAux key seen l) : key x ∉ seen := by
  induction l generalizing seen with
  | nil => simp [dedupByAux] at h
  | cons a as ih =>
    simp only [dedupByAux] at h
    split at h
    · exact ih h
    · rcases List.mem_cons.mp h with h | h
      · subst h; assumption
      · exact fun hs => ih h (List.mem_cons_of_mem _ hs)

theorem keys_nodup_dedupByAux {α β : Type} [DecidableEq β] (key : α → β)
    (seen : List β) (l : List α) : ((dedupByAux key seen l).map key).Nodup := by
  induction l generalizing seen with
  | nil => simp [dedupByAux]
  | cons a as ih =>
    simp only [dedupByAux]
    split
    · exact ih _
    · simp only [List.map_cons, List.nodup_cons]
      refine ⟨fun hmem => ?_, ih _⟩
      rcases List.mem_map.mp hmem with ⟨y, hy, hky⟩
      exact key_not_seen_of_mem_dedupByAux hy (hky ▸ List.mem_cons_self _ _)

theorem key_mem_dedupByAux {α β : Type} [DecidableEq β] {key : α → β}
    {seen : List β} {l : List α} {k : β}
    (hk : k ∈ l.map key) (hs : k ∉ seen) :
    k ∈ (dedupByAux key seen l).map key := by
  induction l generalizing seen with
  | nil => simp at hk
  | cons a as ih =>
    simp only [List.map_cons, List.mem_cons] at hk
    simp only [dedupByAux]
    split
    · rcases hk with rfl | hk
      · exact absurd ‹key a ∈ seen› hs
      · exact ih hk hs
    · rcases hk with rfl | hk
      · simp
      · by_cases hka : k = key a
        · simp [hka]
        · simp only [List.map_cons, List.mem_cons]
          exact Or.inr (ih hk (by simp [hka, hs]))

theorem mem_dedupByAux_id {α : Type} [DecidableEq α] {seen : List α}
    {l : List α} {x : α} :
    x ∈ dedupByAux id seen l ↔ x ∈ l ∧ x ∉ seen := by
  induction l generalizing seen with
  | nil => simp [dedupByAux]
  | cons a as ih =>
    simp only [dedupByAux, id_eq]
    by_cases ha : a ∈ seen
    · rw [if_pos ha, ih, List.mem_cons]
      constructor
      · rintro ⟨hx, hs⟩; exact ⟨Or.inr hx, hs⟩
      · rintro ⟨rfl | hx, hs⟩
        · exact absurd ha hs
        · exact ⟨hx, hs⟩
    · rw [if_neg ha]
      simp only [List.mem_cons, ih, List.mem_cons]
      constructor
      · rintro (rfl | ⟨hx, hs⟩)
        · exact ⟨Or.inl rfl, ha⟩
        · exact ⟨Or.inr hx, fun h => hs (Or.inr h)⟩
      · rintro ⟨rfl | hx, hs⟩
        · exact Or.inl rfl
        · by_cases hxa : x = a
          · exact Or.inl hxa
          · exact Or.inr ⟨hx, by simp [hxa, hs]⟩

theorem find?_dedupByAux {α β : Type} [DecidableEq β] {key : α → β}
    {seen : List β} {l : List α} {k : β}
    (hk : k ∈ l.map key) (hs : k ∉ seen) :
    ∃ x, l.find? (fun a => key a == k) = some x ∧
      x ∈ dedupByAux key seen l ∧ key x = k := by
  induction l generalizing seen with
  | nil => simp at hk
  | cons a as ih =>
    by_cases hak : key a = k
    · refine ⟨a, ?_, ?_, hak⟩
      · simp [List.find?_cons, hak]
      · simp only [dedupByAux]
        rw [if_neg (hak ▸ hs)]
        exact List.mem_cons_self _ _
    · have hk' : k ∈ as.map key := by
        simp only [List.map_cons, List.mem_cons] at hk
        rcases hk with rfl | hk
        · exact absurd rfl hak
        · exact hk
      simp only [dedupByAux]
      split
      · rcases ih hk' hs with ⟨x, h1, h2, h3⟩
        exact ⟨x, by simp [List.find?_cons, hak, h1], h2, h3⟩
      · rcases ih hk' (by simp [Ne.symm hak, hs] :
          k ∉ key a :: seen) with ⟨x, h1, h2, h3⟩
        exact ⟨x, by simp [List.find?_cons, hak, h1],
          List.mem_cons_of_mem _ h2, h3⟩

theorem dedupByAux_id_eq_self {α : Type} [DecidableEq α] {seen : List α}
    {l : List α} (hnd : l.Nodup) (hdisj : ∀ x ∈ l, x ∉ seen) :
    dedupByAux id seen l = l := by
  induction l generalizing seen with
  | nil => rfl
  | cons a as ih =>
    rcases List.nodup_cons.mp hnd with ⟨hna, hnd'⟩
    simp only [dedupByAux, id_eq]
    rw [if_neg (hdisj a (List.mem_cons_self _ _))]
    congr 1
    refine ih hnd' fun x hx => ?_
    simp only [List.mem_cons]
    rintro (rfl | hsx)
    · exact hna hx
    · exact hdisj x (List.mem_cons_of_mem _ hx) hsx

theorem nodup_dedupBy_id {α : Type} [DecidableEq α] (l : List α) :
    (dedupBy id l).Nodup := by
  have := keys_nodup_dedupByAux (@id α) [] l
  simpa [List.map_id] using this

theorem mem_dedupBy_id {α : Type} [DecidableEq α] {l : List α} {x : α} :
    x ∈ dedupBy id l ↔ x ∈ l := by
  unfold dedupBy
  rw [mem_dedupByAux_id]
  simp

theorem length_dedupBy_id {α : Type} [DecidableEq α] (l : List α) :
    (dedupBy id l).length = l.dedup.length := by
  have h2 : (dedupBy id l).toFinset = l.toFinset := by
    ext x
    simp [List.mem_toFinset, mem_dedupBy_id]
  calc (dedupBy id l).length
      = (dedupBy id l).toFinset.card :=
        (List.toFinset_card_of_nodup (nodup_dedupBy_id l)).symm
    _ = l.toFinset.card := by rw [h2]
    _ = l.dedup.length := List.card_toFinset l

theorem length_dedupBy_key {α β : Type} [DecidableEq β] (key : α → β)
    (l : List α) : (dedupBy key l).length = (l.map key).dedup.length := by
  have h1 : ((dedupBy key l).map key).Nodup := keys_nodup_dedupByAux key [] l
  have h2 : ((dedupBy key l).map key).toFinset = (l.map key).toFinset := by
    ext k
    simp only [List.mem_toFinset]
    constructor
    · intro hk
      rcases List.mem_map.mp hk with ⟨x, hx, rfl⟩
      exact List.mem_map_of_mem _ (mem_of_mem_dedupByAux hx)
    · intro hk
      exact key_mem_dedupByAux hk (by simp)
  calc (dedupBy key l).length
      = ((dedupBy key l).map key).length := (List.length_map _ _).symm
    _ = ((dedupBy key l).map key).toFinset.card :=
        (List.toFinset_card_of_nodup h1).symm
    _ = (l.map key).toFinset.card := by rw [h2]
    _ = (l.map key).dedup.length := List.card_toFinset _

/-! ### Generic lemmas: `leftMerge` (pandas left merge) -/

theorem leftMerge_comb_mem {α β γ : Type} {L : List α} {R : List β}
    {m : α → β → Bool} {c : α → β → γ} {n : α → γ} {a : α} {b : β}
    (ha : a ∈ L) (hb : b ∈ R) (hm : m a b = true) :
    c a b ∈ leftMerge L R m c n := by
  have hbf : b ∈ R.filter (m a) := List.mem_filter.mpr ⟨hb, hm⟩
  have hne : (R.filter (m a)).isEmpty = false := by
    cases hf : R.filter (m a) with
    | nil => rw [hf] at hbf; simp at hbf
    | cons x xs => simp
  unfold leftMerge
  refine List.mem_flatMap.mpr ⟨a, ha, ?_⟩
  rw [if_neg (by simp [hne])]
  exact List.mem_map_of_mem _ hbf

theorem leftMerge_exists {α β γ : Type} {L : List α} {R : List β}
    {m : α → β → Bool} {c : α → β → γ} {n : α → γ} {a : α} (ha : a ∈ L) :
    ∃ x ∈ leftMerge L R m c n,
      x = n a ∨ ∃ b ∈ R, m a b = true ∧ x = c a b := by
  cases hf : R.filter (m a) with
  | nil =>
      refine ⟨n a, ?_, Or.inl rfl⟩
      unfold leftMerge
      exact List.mem_flatMap.mpr ⟨a, ha, by rw [if_pos (by simp [hf])]; simp⟩
  | cons b bs =>
      have hbf : b ∈ R.filter (m a) := hf ▸ List.mem_cons_self _ _
      rcases List.mem_filter.mp hbf with ⟨hbR, hmb⟩
      exact ⟨c a b, leftMerge_comb_mem ha hbR hmb, Or.inr ⟨b, hbR, hmb, rfl⟩⟩

theorem mem_leftMerge_of_cover {α β γ : Type} {L : List α} {R : List β}
    {m : α → β → Bool} {c : α → β → γ} {n : α → γ} {x : γ}
    (hcov : ∀ a ∈ L, ∃ b ∈ R, m a b = true)
    (hx : x ∈ leftMerge L R m c n) :
    ∃ a ∈ L, ∃ b ∈ R, m a b = true ∧ x = c a b := by
  rcases List.mem_flatMap.mp hx with ⟨a, ha, hseg⟩
  rcases hcov a ha with ⟨b0, hb0, hm0⟩
  have hb0f : b0 ∈ R.filter (m a) := List.mem_filter.mpr ⟨hb0, hm0⟩
  have hne : ¬((R.filter (m a)).isEmpty = true) := by
    cases hf : R.filter (m a) with
    | nil => rw [hf] at hb0f; simp at hb0f
    | cons y ys => simp
  rw [if_neg hne] at hseg
  rcases List.mem_map.mp hseg with ⟨b, hbf, rfl⟩
  rcases List.mem_filter.mp hbf with ⟨hbR, hmb⟩
  exact ⟨a, ha, b, hbR, hmb, rfl⟩

theorem leftMerge_map {α β γ δ : Type} {L : List α} {R : List β}
    {m : α → β → Bool} {c : α → β → γ} {n : α → γ}
    {proj : γ → δ} {p : α → δ}
    (h : ∀ a ∈ L, (R.filter (m a)).length = 1)
    (hc : ∀ a b, proj (c a b) = p a) (_hn : ∀ a, proj (n a) = p a) :
    (leftMerge L R m c n).map proj = L.map p := by
  induction L with
  | nil => rfl
  | cons a as ih =>
    rcases List.length_eq_one.mp (h a (List.mem_cons_self _ _)) with ⟨b, hb⟩
    have tail := ih fun a' ha' => h a' (List.mem_cons_of_mem _ ha')
    unfold leftMerge at tail ⊢
    simp only [List.flatMap_cons, List.map_append, tail, List.map_cons]
    rw [hb]
    simp [hc]

theorem leftMerge_length {α β γ : Type} {L : List α} {R : List β}
    {m : α → β → Bool} {c : α → β → γ} {n : α → γ}
    (h : ∀ a ∈ L, (R.filter (m a)).length = 1) :
    (leftMerge L R m c n).length = L.length := by
  have hmap := @leftMerge_map α β γ Unit L R m c n (fun _ => ()) (fun _ => ())
    h (fun _ _ => rfl) (fun _ => rfl)
  calc (leftMerge L R m c n).length
      = ((leftMerge L R m c n).map fun _ => ()).length :=
        (List.length_map _ _).symm
    _ = (L.map fun _ => ()).length := by rw [hmap]
    _ = L.length := List.length_map _ _

theorem leftMerge_eq_map {α β γ : Type} {L : List α} {R : List β}
    {m : α → β → Bool} {c : α → β → γ} {n : α → γ} {g : α → γ}
    (h : ∀ a ∈ L, ∃ b, R.filter (m a) = [b] ∧ c a b = g a) :
    leftMerge L R m c n = L.map g := by
  induction L with
  | nil => rfl
  | cons a as ih =>
    rcases h a (List.mem_cons_self _ _) with ⟨b, hf, hcb⟩
    have tail := ih fun a' ha' => h a' (List.mem_cons_of_mem _ ha')
    unfold leftMerge at tail ⊢
    simp only [List.flatMap_cons, tail, List.map_cons]
    rw [hf]
    simp [hcb]

/-! ### Generic lemmas: `enum`-based surrogate-key assignment -/

theorem enum_map_snd_comp {α γ : Type} (l : List α) (h : α → γ) :
    (l.enum.map fun q => h q.2) = l.map h := by
  have heq : (fun q : Nat × α => h q.2) = h ∘ Prod.snd := rfl
  rw [heq, ← List.map_map, List.enum_map_snd]

theorem enum_map_idx1 {α : Type} (l : List α) :
    (l.enum.map fun q => q.1 + 1) = List.range' 1 l.length := by
  have heq : (fun q : Nat × α => q.1 + 1) = (fun i => i + 1) ∘ Prod.fst := rfl
  rw [heq, ← List.map_map, List.enum_map_fst, List.range'_eq_map_range]
  exact List.map_congr_left fun i _ => Nat.add_comm i 1

theorem enumMap_proj_ids {α β : Type} (l : List α) (g : Nat × α → β)
    (idf : β → Nat) (hid : ∀ q, idf (g q) = q.1 + 1) :
    (l.enum.map g).map idf = List.range' 1 l.length := by
  rw [List.map_map]
  have heq : idf ∘ g = fun q : Nat × α => q.1 + 1 := funext hid
  rw [heq, enum_map_idx1]

theorem enumMap_proj_key {α κ β : Type} (l : List α) (g : Nat × α → β)
    (kf : β → κ) (k0 : α → κ) (hk : ∀ q, kf (g q) = k0 q.2) :
    (l.enum.map g).map kf = l.map k0 := by
  rw [List.map_map]
  have heq : kf ∘ g = fun q : Nat × α => k0 q.2 := funext hk
  rw [heq, enum_map_snd_comp]

theorem snd_mem_of_mem_enum {α : Type} {l : List α} {q : Nat × α}
    (h : q ∈ l.enum) : q.2 ∈ l := by
  have hm : q.2 ∈ l.enum.map Prod.snd := List.mem_map_of_mem _ h
  rwa [List.enum_map_snd] at hm

/-! ### Generic lemma: unique match against a key-unique table -/

theorem filter_find_of_nodup_keys {β κ : Type} [DecidableEq κ]
    {R : List β} {key : β → κ} (hnd : (R.map key).Nodup) {b : β}
    (hb : b ∈ R) {k : κ} (hbk : key b = k) :
    R.filter (fun d => k == key d) = [b] ∧
      R.find? (fun d => k == key d) = some b := by
  subst hbk
  induction R with
  | nil => simp at hb
  | cons r rs ih =>
    have hnd' : (key r :: rs.map key).Nodup := by simpa using hnd
    rcases List.nodup_cons.mp hnd' with ⟨hhead, htail⟩
    rcases List.mem_cons.mp hb with rfl | hbmem
    · have hrest : rs.filter (fun d => key b == key d) = [] := by
        refine List.filter_eq_nil_iff.mpr fun d hd hpd => ?_
        have he : key b = key d := beq_iff_eq.mp hpd
        exact hhead (he.symm ▸ List.mem_map_of_mem key hd)
      constructor
      · simp [List.filter_cons, hrest]
      · simp [List.find?_cons]
    · have hne : (key b == key r) = false := by
        refine beq_eq_false_iff_ne.mpr fun he => ?_
        exact hhead (he ▸ List.mem_map_of_mem key hbmem)
      rcases ih htail hbmem with ⟨h1, h2⟩
      constructor
      · simp [List.filter_cons, hne, h1]
      · simp [List.find?_cons, hne, h2]

theorem enumMap_length {α β : Type} (l : List α) (g : Nat × α → β) :
    (l.enum.map g).length = l.length := by
  rw [List.length_map, List.enum_length]

/-! ### Lemmas about the Region dimension -/

theorem dim_region_names (df : List Row) :
    (dim_region df).map RegionRow.region_name = dedupBy id (df.map Row.region) := by
  have h := enumMap_proj_key (dedupBy id (df.map fun r => r.region))
    (fun p => ({ region_name := p.2, region_id := p.1 + 1 } : RegionRow))
    RegionRow.region_name id (fun q => rfl)
  rw [List.map_id] at h
  exact h

theorem dim_region_ids (df : List Row) :
    (dim_region df).map RegionRow.region_id =
      List.range' 1 (dedupBy id (df.map Row.region)).length := by
  exact enumMap_proj_ids (dedupBy id (df.map fun r => r.region))
    (fun p => ({ region_name := p.2, region_id := p.1 + 1 } : RegionRow))
    RegionRow.region_id (fun q => rfl)

theorem dim_region_names_nodup (df : List Row) :
    ((dim_region df).map RegionRow.region_name).Nodup := by
  rw [dim_region_names]
  exact nodup_dedupBy_id _

theorem dim_region_ids_nodup (df : List Row) :
    ((dim_region df).map RegionRow.region_id).Nodup := by
  rw [dim_region_ids]
  exact List.nodup_range' _ _

theorem region_cover {df : List Row} {reg : String}
    (h : reg ∈ df.map Row.region) : ∃ d ∈ dim_region df, d.region_name = reg := by
  have h2 : reg ∈ dedupBy id (df.map Row.region) := mem_dedupBy_id.mpr h
  rw [← dim_region_names] at h2
  exact List.mem_map.mp h2

theorem region_filter_singleton {df : List Row} {reg : String}
    (h : reg ∈ df.map Row.region) :
    ∃ d ∈ dim_region df, d.region_name = reg ∧
      (dim_region df).filter (fun d => reg == d.region_name) = [d] ∧
      regionIdOf df reg = some d.region_id := by
  rcases region_cover h with ⟨d, hd, hdn⟩
  rcases filter_find_of_nodup_keys (dim_region_names_nodup df) hd hdn with ⟨h1, h2⟩
  exact ⟨d, hd, hdn, h1, by simp [regionIdOf, h2]⟩

/-! ### Lemmas about the State dimension -/

theorem df_state_prep_mem {df : List Row} {p : String × String}
    (h : p ∈ df_state_prep df) : ∃ r ∈ df, p = (r.state, r.region) := by
  unfold df_state_prep at h
  have h2 := mem_dedupBy_id.mp h
  rcases List.mem_map.mp h2 with ⟨r, hr, hrp⟩
  exact ⟨r, hr, hrp.symm⟩

theorem statePrepMerged_eq_map (df : List Row) :
    statePrepMerged df =
      (df_state_prep df).map fun p => (p.1, regionIdOf df p.2) := by
  unfold statePrepMerged
  refine leftMerge_eq_map fun p hp => ?_
  rcases df_state_prep_mem hp with ⟨r, hr, rfl⟩
  have hreg : r.region ∈ df.map Row.region := List.mem_map_of_mem _ hr
  rcases region_filter_singleton hreg with ⟨d, hd, hdn, hfil, hrid⟩
  exact ⟨d, hfil, by simp [hrid]⟩

theorem regionIdOf_inj {df : List Row} {reg1 reg2 : String}
    (h1 : reg1 ∈ df.map Row.region) (h2 : reg2 ∈ df.map Row.region)
    (heq : regionIdOf df reg1 = regionIdOf df reg2) : reg1 = reg2 := by
  rcases region_filter_singleton h1 with ⟨d1, hd1, hn1, _, hr1⟩
  rcases region_filter_singleton h2 with ⟨d2, hd2, hn2, _, hr2⟩
  rw [hr1, hr2] at heq
  have hid : d1.region_id = d2.region_id := by simpa using heq
  have hdd : d1 = d2 :=
    List.inj_on_of_nodup_map (dim_region_ids_nodup df) hd1 hd2 hid
  rw [← hn1, ← hn2, hdd]

theorem df_state_prep_nodup (df : List Row) : (df_state_prep df).Nodup := by
  unfold df_state_prep
  exact nodup_dedupBy_id _

theorem statePrepMerged_nodup (df : List Row) : (statePrepMerged df).Nodup := by
  rw [statePrepMerged_eq_map]
  refine List.Nodup.map_on ?_ (df_state_prep_nodup df)
  intro p hp q hq hpq
  rcases df_state_prep_mem hp with ⟨rp, hrp, rfl⟩
  rcases df_state_prep_mem hq with ⟨rq, hrq, rfl⟩
  simp only [Prod.mk.injEq] at hpq ⊢
  refine ⟨hpq.1, ?_⟩
  exact regionIdOf_inj (List.mem_map_of_mem _ hrp)
    (List.mem_map_of_mem _ hrq) hpq.2

theorem dedup_statePrepMerged (df : List Row) :
    dedupBy id (statePrepMerged df) = statePrepMerged df := by
  unfold dedupBy
  exact dedupByAux_id_eq_self (statePrepMerged_nodup df) (by simp)

theorem dim_state_natkeys (df : List Row) :
    ((dim_state df).map fun d => (d.state_name, d.region_id)) =
      dedupBy id (statePrepMerged df) := by
  have h := enumMap_proj_key (dedupBy id (statePrepMerged df))
    (fun q => ({ state_name := q.2.1, region_id := q.2.2,
                 state_id := q.1 + 1 } : StateRow))
    (fun d => (d.state_name, d.region_id)) id (fun q => rfl)
  rw [List.map_id] at h
  exact h

theorem dim_state_ids_raw (df : List Row) :
    (dim_state df).map StateRow.state_id =
      List.range' 1 (dedupBy id (statePrepMerged df)).length := by
  exact enumMap_proj_ids (dedupBy id (statePrepMerged df))
    (fun q => ({ state_name := q.2.1, region_id := q.2.2,
                 state_id := q.1 + 1 } : StateRow))
    StateRow.state_id (fun q => rfl)

theorem dim_state_natkeys_nodup (df : List Row) :
    ((dim_state df).map fun d => (d.state_name, d.region_id)).Nodup := by
  rw [dim_state_natkeys]
  exact nodup_dedupBy_id _

theorem dim_state_length (df : List Row) :
    (dim_state df).length =
      ((df.map fun r => (r.state, r.region)).dedup).length := by
  have h1 : (dim_state df).length = (dedupBy id (statePrepMerged df)).length := by
    unfold dim_state
    exact enumMap_length _ _
  rw [h1, dedup_statePrepMerged, statePrepMerged_eq_map, List.length_map]
  unfold df_state_prep
  exact length_dedupBy_id _

theorem state_cover {df : List Row} {r : Row} (hr : r ∈ df) :
    ∃ d ∈ dim_state df, d.state_name = r.state := by
  have hp : (r.state, r.region) ∈ df_state_prep df := by
    unfold df_state_prep
    exact mem_dedupBy_id.mpr (List.mem_map_of_mem _ hr)
  have hm : (r.state, regionIdOf df r.region) ∈ statePrepMerged df := by
    rw [statePrepMerged_eq_map]
    exact List.mem_map_of_mem _ hp
  have hd : (r.state, regionIdOf df r.region) ∈ dedupBy id (statePrepMerged df) := by
    rw [dedup_statePrepMerged]
    exact hm
  rw [← dim_state_natkeys] at hd
  rcases List.mem_map.mp hd with ⟨d, hdm, hde⟩
  refine ⟨d, hdm, ?_⟩
  simpa using congrArg Prod.fst hde

theorem state_region_some {df : List Row} {d : StateRow}
    (hd : d ∈ dim_state df) :
    ∃ dr ∈ dim_region df, d.region_id = some dr.region_id := by
  have h1 : (d.state_name, d.region_id) ∈ dedupBy id (statePrepMerged df) := by
    rw [← dim_state_natkeys]
    exact List.mem_map_of_mem _ hd
  rw [dedup_statePrepMerged, statePrepMerged_eq_map] at h1
  rcases List.mem_map.mp h1 with ⟨p, hp, hpe⟩
  rcases df_state_prep_mem hp with ⟨r, hr, rfl⟩
  have hreg : r.region ∈ df.map Row.region := List.mem_map_of_mem _ hr
  rcases region_filter_singleton hreg with ⟨dr, hdr, _, _, hrid⟩
  have hsnd : regionIdOf df r.region = d.region_id := by
    simpa using congrArg Prod.snd hpe
  exact ⟨dr, hdr, by rw [← hsnd, hrid]⟩

/-! ### Lemmas about the City dimension -/

theorem dim_city_natkeys (df : List Row) :
    ((dim_city df).map fun d => (d.city_name, d.state_id)) =
      dedupBy id (cityPrepMerged df) := by
  have h := enumMap_proj_key (dedupBy id (cityPrepMerged df))
    (fun q => ({ city_name := q.2.1, state_id := q.2.2,
                 city_id := q.1 + 1 } : CityRow))
    (fun d => (d.city_name, d.state_id)) id (fun q => rfl)
  rw [List.map_id] at h
  exact h

theorem dim_city_ids_raw (df : List Row) :
    (dim_city df).map CityRow.city_id =
      List.range' 1 (dedupBy id (cityPrepMerged df)).length := by
  exact enumMap_proj_ids (dedupBy id (cityPrepMerged df))
    (fun q => ({ city_name := q.2.1, state_id := q.2.2,
                 city_id := q.1 + 1 } : CityRow))
    CityRow.city_id (fun q => rfl)

theorem dim_city_natkeys_nodup (df : List Row) :
    ((dim_city df).map fun d => (d.city_name, d.state_id)).Nodup := by
  rw [dim_city_natkeys]
  exact nodup_dedupBy_id _

theorem dim_city_length (df : List Row) :
    (dim_city df).length = (dedupBy id (cityPrepMerged df)).length := by
  unfold dim_city
  exact enumMap_length _ _

theorem city_cover {df : List Row} {r : Row} {ds : StateRow}
    (hr : r ∈ df) (hds : ds ∈ dim_state df) (hname : r.state = ds.state_name) :
    ∃ dc ∈ dim_city df, dc.city_name = r.city ∧ dc.state_id = some ds.state_id := by
  have hp : (r.city, r.state) ∈ dedupBy id (df.map fun x => (x.city, x.state)) :=
    mem_dedupBy_id.mpr (List.mem_map_of_mem _ hr)
  have hm : ((r.city, r.state).1, some ds.state_id) ∈ cityPrepMerged df := by
    unfold cityPrepMerged
    exact leftMerge_comb_mem hp hds (by simp [hname])
  have hd : (r.city, some ds.state_id) ∈ dedupBy id (cityPrepMerged df) :=
    mem_dedupBy_id.mpr hm
  rw [← dim_city_natkeys] at hd
  rcases List.mem_map.mp hd with ⟨dc, hdc, hde⟩
  exact ⟨dc, hdc, by simpa using congrArg Prod.fst hde,
    by simpa using congrArg Prod.snd hde⟩

/-! ### Lemmas about the Product and Sales-Method dimensions -/

theorem dim_product_natpairs (df : List Row) :
    ((dim_product df).map fun d => (d.product_name, d.price_per_unit)) =
      dedupBy Prod.fst (df.map fun r => (r.product, r.price_per_unit)) := by
  have h := enumMap_proj_key
    (dedupBy Prod.fst (df.map fun r => (r.product, r.price_per_unit)))
    (fun q => ({ product_name := q.2.1, price_per_unit := q.2.2,
                 product_id := q.1 + 1 } : ProductRow))
    (fun d => (d.product_name, d.price_per_unit)) id (fun q => rfl)
  rw [List.map_id] at h
  exact h

theorem dim_product_ids (df : List Row) :
    (dim_product df).map ProductRow.product_id =
      List.range' 1
        (dedupBy Prod.fst (df.map fun r => (r.product, r.price_per_unit))).length := by
  exact enumMap_proj_ids
    (dedupBy Prod.fst (df.map fun r => (r.product, r.price_per_unit)))
    (fun q => ({ product_name := q.2.1, price_per_unit := q.2.2,
                 product_id := q.1 + 1 } : ProductRow))
    ProductRow.product_id (fun q => rfl)

theorem dim_product_names (df : List Row) :
    (dim_product df).map ProductRow.product_name =
      (dedupBy Prod.fst (df.map fun r => (r.product, r.price_per_unit))).map
        Prod.fst := by
  exact enumMap_proj_key
    (dedupBy Prod.fst (df.map fun r => (r.product, r.price_per_unit)))
    (fun q => ({ product_name := q.2.1, price_per_unit := q.2.2,
                 product_id := q.1 + 1 } : ProductRow))
    ProductRow.product_name Prod.fst (fun q => rfl)

theorem dim_product_names_nodup (df : List Row) :
    ((dim_product df).map ProductRow.product_name).Nodup := by
  rw [dim_product_names]
  exact keys_nodup_dedupByAux Prod.fst []
    (df.map fun r => (r.product, r.price_per_unit))

theorem product_cover {df : List Row} {r : Row} (hr : r ∈ df) :
    ∃ d ∈ dim_product df, d.product_name = r.product := by
  have h0 : r.product ∈ (df.map fun x => (x.product, x.price_per_unit)).map
      Prod.fst := by
    rw [List.map_map]
    exact List.mem_map_of_mem _ hr
  have h1 : r.product ∈
      (dedupBy Prod.fst (df.map fun x => (x.product, x.price_per_unit))).map
        Prod.fst := key_mem_dedupByAux h0 (by simp)
  rw [← dim_product_names] at h1
  exact List.mem_map.mp h1

theorem dim_sales_method_names (df : List Row) :
    (dim_sales_method df).map MethodRow.method_name =
      dedupBy id (df.map Row.sales_method) := by
  have h := enumMap_proj_key (dedupBy id (df.map fun r => r.sales_method))
    (fun q => ({ method_name := q.2, sales_method_id := q.1 + 1 } : MethodRow))
    MethodRow.method_name id (fun q => rfl)
  rw [List.map_id] at h
  exact h

theorem dim_sales_method_ids (df : List Row) :
    (dim_sales_method df).map MethodRow.sales_method_id =
      List.range' 1 (dedupBy id (df.map Row.sales_method)).length := by
  exact enumMap_proj_ids (dedupBy id (df.map fun r => r.sales_method))
    (fun q => ({ method_name := q.2, sales_method_id := q.1 + 1 } : MethodRow))
    MethodRow.sales_method_id (fun q => rfl)

theorem dim_sales_method_names_nodup (df : List Row) :
    ((dim_sales_method df).map MethodRow.method_name).Nodup := by
  rw [dim_sales_method_names]
  exact nodup_dedupBy_id _

theorem method_cover {df : List Row} {r : Row} (hr : r ∈ df) :
    ∃ d ∈ dim_sales_method df, d.method_name = r.sales_method := by
  have h2 : r.sales_method ∈ dedupBy id (df.map Row.sales_method) :=
    mem_dedupBy_id.mpr (List.mem_map_of_mem _ hr)
  rw [← dim_sales_method_names] at h2
  exact List.mem_map.mp h2

/-! ### Lemma about the Retailer dimension -/

theorem dim_retailer_pairs (df : List Row) :
    ((dim_retailer df).map fun d => (d.retailer_id, d.retailer_name)) =
      dedupBy id (df.map fun r => (r.retailer_id, r.retailer)) := by
  unfold dim_retailer
  rw [List.map_map]
  have heq : ((fun d : RetailerRow => (d.retailer_id, d.retailer_name)) ∘
      fun p : String × String =>
        ({ retailer_id := p.1, retailer_name := p.2 } : RetailerRow)) = id :=
    funext fun p => rfl
  rw [heq, List.map_id]

/-! ### Shape of the fact-build stages -/

theorem state_cover_key {df : List Row} {r : Row} (hr : r ∈ df) :
    ∃ d ∈ dim_state df, stateKey r d = true := by
  rcases state_cover hr with ⟨d, hd, hdn⟩
  exact ⟨d, hd, by simp [stateKey, hdn]⟩

theorem fact1_shape {df : List Row} {x : F1} (hx : x ∈ fact1 df) :
    ∃ r ∈ df, ∃ d ∈ dim_state df, r.state = d.state_name ∧
      x = { row := r, state_id := some d.state_id, region_id := d.region_id } := by
  rcases mem_leftMerge_of_cover (fun a ha => state_cover_key ha) hx with
    ⟨r, hr, d, hd, hm, rfl⟩
  exact ⟨r, hr, d, hd, by simpa [stateKey] using hm, rfl⟩

theorem city_cover_key {df : List Row} {x : F1} (hx : x ∈ fact1 df) :
    ∃ d ∈ dim_city df, cityKey x d = true := by
  rcases fact1_shape hx with ⟨r, hr, ds, hds, hname, rfl⟩
  rcases city_cover hr hds hname with ⟨dc, hdc, h1, h2⟩
  exact ⟨dc, hdc, by simp [cityKey, h1, h2]⟩

theorem fact2_shape {df : List Row} {y : F2} (hy : y ∈ fact2 df) :
    ∃ x ∈ fact1 df, ∃ d ∈ dim_city df,
      y = { base := x, city_id := some d.city_id } := by
  rcases mem_leftMerge_of_cover (fun a ha => city_cover_key ha) hy with
    ⟨x, hx, d, hd, _, rfl⟩
  exact ⟨x, hx, d, hd, rfl⟩

theorem product_cover_key {df : List Row} {y : F2} (hy : y ∈ fact2 df) :
    ∃ d ∈ dim_product df, productKey y d = true := by
  rcases fact2_shape hy with ⟨x, hx, dc, hdc, rfl⟩
  rcases fact1_shape hx with ⟨r, hr, ds, hds, hname, rfl⟩
  rcases product_cover hr with ⟨dp, hdp, hdpn⟩
  exact ⟨dp, hdp, by simp [productKey, hdpn]⟩

theorem fact3_shape {df : List Row} {z : F3} (hz : z ∈ fact3 df) :
    ∃ y ∈ fact2 df, ∃ d ∈ dim_product df,
      z = { base := y, product_id := some d.product_id } := by
  rcases mem_leftMerge_of_cover (fun a ha => product_cover_key ha) hz with
    ⟨y, hy, d, hd, _, rfl⟩
  exact ⟨y, hy, d, hd, rfl⟩

theorem method_cover_key {df : List Row} {z : F3} (hz : z ∈ fact3 df) :
    ∃ d ∈ dim_sales_method df, methodKey z d = true := by
  rcases fact3_shape hz with ⟨y, hy, dp, hdp, rfl⟩
  rcases fact2_shape hy with ⟨x, hx, dc, hdc, rfl⟩
  rcases fact1_shape hx with ⟨r, hr, ds, hds, hname, rfl⟩
  rcases method_cover hr with ⟨dm, hdm, hdmn⟩
  exact ⟨dm, hdm, by simp [methodKey, hdmn]⟩

theorem fact4_shape {df : List Row} {w : F4} (hw : w ∈ fact4 df) :
    ∃ z ∈ fact3 df, ∃ d ∈ dim_sales_method df,
      w = { base := z, sales_method_id := some d.sales_method_id } := by
  rcases mem_leftMerge_of_cover (fun a ha => method_cover_key ha) hw with
    ⟨z, hz, d, hd, _, rfl⟩
  exact ⟨z, hz, d, hd, rfl⟩

/-! ### Every produced fact row carries resolved foreign keys -/

theorem fact_table_mem {df : List Row} {fr : FactRow}
    (h : fr ∈ fact_table df) :
    ∃ w ∈ fact4 df,
      fr.city_id = w.base.base.city_id ∧ fr.product_id = w.base.product_id ∧
      fr.sales_method_id = w.sales_method_id ∧
      fr.region_id = w.base.base.base.region_id := by
  unfold fact_table at h
  rcases List.mem_map.mp h with ⟨q, hq, rfl⟩
  exact ⟨q.2, snd_mem_of_mem_enum hq, rfl, rfl, rfl, rfl⟩

theorem fact_fk_some {df : List Row} {fr : FactRow} (h : fr ∈ fact_table df) :
    fr.city_id.isSome = true ∧ fr.product_id.isSome = true ∧
    fr.sales_method_id.isSome = true ∧ fr.region_id.isSome = true := by
  rcases fact_table_mem h with ⟨w, hw, h1, h2, h3, h4⟩
  rcases fact4_shape hw with ⟨z, hz, dm, hdm, rfl⟩
  rcases fact3_shape hz with ⟨y, hy, dp, hdp, rfl⟩
  rcases fact2_shape hy with ⟨x, hx, dc, hdc, rfl⟩
  rcases fact1_shape hx with ⟨r, hr, ds, hds, hname, rfl⟩
  rcases state_region_some hds with ⟨dr, hdr, hrid⟩
  refine ⟨?_, ?_, ?_, ?_⟩ <;> simp [h1, h2, h3, h4, hrid]

/-! ### Row preservation when every lookup resolves uniquely -/

theorem fact1_map_row {df : List Row}
    (h : ∀ r ∈ df, ((dim_state df).filter (stateKey r)).length = 1) :
    (fact1 df).map F1.row = df := by
  have hm := @leftMerge_map Row StateRow F1 Row df (dim_state df) stateKey
    (fun r d => { row := r, state_id := some d.state_id, region_id := d.region_id })
    (fun r => { row := r, state_id := none, region_id := none })
    F1.row id h (fun _ _ => rfl) (fun _ => rfl)
  unfold fact1
  rw [hm, List.map_id]

theorem fact2_map_orig {df : List Row}
    (h : ∀ x ∈ fact1 df, ((dim_city df).filter (cityKey x)).length = 1) :
    (fact2 df).map F2.origRow = (fact1 df).map F1.row := by
  have hm := @leftMerge_map F1 CityRow F2 Row (fact1 df) (dim_city df) cityKey
    (fun x d => { base := x, city_id := some d.city_id })
    (fun x => { base := x, city_id := none })
    F2.origRow F1.row h (fun _ _ => rfl) (fun _ => rfl)
  unfold fact2
  exact hm

theorem fact3_map_orig {df : List Row}
    (h : ∀ x ∈ fact2 df, ((dim_product df).filter (productKey x)).length = 1) :
    (fact3 df).map F3.origRow = (fact2 df).map F2.origRow := by
  have hm := @leftMerge_map F2 ProductRow F3 Row (fact2 df) (dim_product df)
    productKey
    (fun x d => { base := x, product_id := some d.product_id })
    (fun x => { base := x, product_id := none })
    F3.origRow F2.origRow h (fun _ _ => rfl) (fun _ => rfl)
  unfold fact3
  exact hm

theorem fact4_map_orig {df : List Row}
    (h : ∀ x ∈ fact3 df, ((dim_sales_method df).filter (methodKey x)).length = 1) :
    (fact4 df).map F4.origRow = (fact3 df).map F3.origRow := by
  have hm := @leftMerge_map F3 MethodRow F4 Row (fact3 df) (dim_sales_method df)
    methodKey
    (fun x d => { base := x, sales_method_id := some d.sales_method_id })
    (fun x => { base := x, sales_method_id := none })
    F4.origRow F3.origRow h (fun _ _ => rfl) (fun _ => rfl)
  unfold fact4
  exact hm

theorem fact4_map_of_unique {df : List Row} (h : uniqueResolution df) :
    (fact4 df).map F4.origRow = df := by
  rcases h with ⟨h1, h2, h3, h4⟩
  rw [fact4_map_orig h4, fact3_map_orig h3, fact2_map_orig h2, fact1_map_row h1]

theorem fact4_length_of_unique {df : List Row} (h : uniqueResolution df) :
    (fact4 df).length = df.length := by
  have hc := congrArg List.length (fact4_map_of_unique h)
  simpa using hc

theorem fact_table_length (df : List Row) :
    (fact_table df).length = (fact4 df).length := by
  unfold fact_table
  exact enumMap_length _ _

theorem fact_table_length_of_unique {df : List Row} (h : uniqueResolution df) :
    (fact_table df).length = df.length := by
  rw [fact_table_length]
  exact fact4_length_of_unique h

theorem fact_table_map_proj_of_unique {df : List Row} (h : uniqueResolution df) :
    (fact_table df).map factProj = df.map rowProj := by
  have h1 : (fact_table df).map factProj =
      (fact4 df).map fun w : F4 => rowProj w.origRow := by
    unfold fact_table
    exact enumMap_proj_key _ _ factProj (fun w : F4 => rowProj w.origRow)
      (fun q => rfl)
  have h2 : ((fact4 df).map fun w : F4 => rowProj w.origRow) =
      ((fact4 df).map F4.origRow).map rowProj := by
    rw [List.map_map]
    rfl
  rw [h1, h2, fact4_map_of_unique h]

/-! ### Transaction identifiers -/

theorem fact_table_tids (df : List Row) :
    (fact_table df).map FactRow.transaction_id =
      List.range' 1 (fact_table df).length := by
  rw [fact_table_length]
  unfold fact_table
  exact enumMap_proj_ids _ _ FactRow.transaction_id (fun q => rfl)

/-! ### First-seen price for a duplicated product name -/

theorem product_first_price {df : List Row} {n : String}
    (h : n ∈ df.map Row.product) :
    ∃ p : Int, firstPriceOf df n = some p ∧
      ∃ d ∈ dim_product df, d.product_name = n ∧ d.price_per_unit = p ∧
        (dim_product df).filter (fun d => n == d.product_name) = [d] := by
  have hk : n ∈ (df.map fun r => (r.product, r.price_per_unit)).map Prod.fst := by
    rw [List.map_map]
    exact h
  rcases @find?_dedupByAux (String × Int) String _ Prod.fst []
    (df.map fun r => (r.product, r.price_per_unit)) n hk (by simp) with
    ⟨pr, hfind, hmem, hfst⟩
  have hcomp : (df.map fun r => (r.product, r.price_per_unit)).find?
      (fun a => a.1 == n) =
      Option.map (fun r : Row => (r.product, r.price_per_unit))
        (df.find? fun r => r.product == n) :=
    List.find?_map _ _
  rw [hcomp] at hfind
  cases hdf : df.find? fun r => r.product == n with
  | none => rw [hdf] at hfind; simp at hfind
  | some r0 =>
      rw [hdf] at hfind
      have hpr : pr = (r0.product, r0.price_per_unit) := by
        simpa using hfind.symm
      refine ⟨pr.2, ?_, ?_⟩
      · unfold firstPriceOf
        rw [hdf, hpr]
        rfl
      · have hmm : pr ∈ ((dim_product df).map
            fun d => (d.product_name, d.price_per_unit)) := by
          rw [dim_product_natpairs]
          exact hmem
        rcases List.mem_map.mp hmm with ⟨d, hd, hde⟩
        have hdn : d.product_name = n := by
          rw [← hfst, ← hde]
        rcases filter_find_of_nodup_keys (dim_product_names_nodup df) hd hdn
          with ⟨hfil, _⟩
        refine ⟨d, hd, hdn, ?_, hfil⟩
        have := congrArg Prod.snd hde
        simpa using this

theorem dim_retailer_ids_mem (df : List Row) (i : String) :
    i ∈ (dim_retailer df).map RetailerRow.retailer_id ↔
      i ∈ df.map Row.retailer_id := by
  have hm : (dim_retailer df).map RetailerRow.retailer_id =
      (dedupBy id (df.map fun r => (r.retailer_id, r.retailer))).map Prod.fst := by
    rw [← dim_retailer_pairs df, List.map_map]
    rfl
  rw [hm]
  constructor
  · intro hk
    rcases List.mem_map.mp hk with ⟨p, hp, rfl⟩
    have hpp : p ∈ df.map fun r => (r.retailer_id, r.retailer) :=
      mem_dedupBy_id.mp hp
    rcases List.mem_map.mp hpp with ⟨r, hr, rfl⟩
    exact List.mem_map_of_mem _ hr
  · intro hk
    rcases List.mem_map.mp hk with ⟨r, hr, rfl⟩
    have hpp : (r.retailer_id, r.retailer) ∈
        dedupBy id (df.map fun x => (x.retailer_id, x.retailer)) :=
      mem_dedupBy_id.mpr (List.mem_map_of_mem _ hr)
    exact List.mem_map.mpr ⟨(r.retailer_id, r.retailer), hpp, rfl⟩

/-! ### Claim theorems -/

/-- C1: the spec requires scoping correctness — two same-named states in
different regions get distinct state_ids AND every city resolves to its
one correct parent, the fact build joining State by region surrogate plus
state name.  On `exDup` (one state name under two regions) the code does
give the two states distinct ids, but the city→state merge (line 90) and
the fact→state merge (line 112) join on the state NAME alone: city
"Alpha" (a city of the East Springfield only) is attached to both state
surrogates, and the 2-row input yields a 4-row fact table. -/
theorem scoping_bug_at_duplicate_state_names :
    (dim_state exDup).map (fun d => (d.state_name, d.region_id, d.state_id)) =
      [("Springfield", some 1, 1), ("Springfield", some 2, 2)] ∧
    ((dim_city exDup).filter fun d => d.city_name == "Alpha").map
      (fun d => (d.state_id, d.city_id)) = [(some 1, 1), (some 2, 2)] ∧
    (fact_table exDup).length = 4 ∧ exDup.length = 2 := by
  refine ⟨by decide, by decide, by decide, by decide⟩

/-- C2: when every fact-row dimension lookup resolves to exactly one
dimension row, the fact table has exactly one row per input row, in input
order, with the passthrough columns untouched — nothing is dropped or
duplicated by the four left merges. -/
theorem fact_rowcount_preservation (df : List Row) (h : uniqueResolution df) :
    (fact_table df).length = df.length ∧
    (fact_table df).map factProj = df.map rowProj :=
  ⟨fact_table_length_of_unique h, fact_table_map_proj_of_unique h⟩

theorem fact_rowcount_preservation_witness :
    uniqueResolution ex3 ∧ (fact_table ex3).length = ex3.length :=
  ⟨by decide, (fact_rowcount_preservation ex3 (by decide)).1⟩

/-- C3: in every dimension table the surrogate-key column is exactly the
contiguous range 1..K and the natural-key column repeats no value, K
being the number of distinct natural keys (for Region, Product and
Sales Method the distinct input values; for State the distinct
(state, region) input pairs; for City the distinct (city name, state
surrogate) pairs the build derives); Retailer carries no synthetic key
and its key set equals the distinct input retailer-id set. -/
theorem dimension_key_uniqueness_contiguity (df : List Row) :
    ((dim_region df).map RegionRow.region_id =
        List.range' 1 (df.map Row.region).dedup.length ∧
      ((dim_region df).map RegionRow.region_name).Nodup) ∧
    ((dim_state df).map StateRow.state_id =
        List.range' 1 (df.map fun r => (r.state, r.region)).dedup.length ∧
      ((dim_state df).map fun d => (d.state_name, d.region_id)).Nodup) ∧
    ((dim_city df).map CityRow.city_id =
        List.range' 1 (dim_city df).length ∧
      ((dim_city df).map fun d => (d.city_name, d.state_id)).Nodup) ∧
    ((dim_product df).map ProductRow.product_id =
        List.range' 1 (df.map Row.product).dedup.length ∧
      ((dim_product df).map ProductRow.product_name).Nodup) ∧
    ((dim_sales_method df).map MethodRow.sales_method_id =
        List.range' 1 (df.map Row.sales_method).dedup.length ∧
      ((dim_sales_method df).map MethodRow.method_name).Nodup) ∧
    (∀ i : String, i ∈ (dim_retailer df).map RetailerRow.retailer_id ↔
      i ∈ df.map Row.retailer_id) := by
  refine ⟨⟨?_, dim_region_names_nodup df⟩,
    ⟨?_, dim_state_natkeys_nodup df⟩,
    ⟨?_, dim_city_natkeys_nodup df⟩,
    ⟨?_, dim_product_names_nodup df⟩,
    ⟨?_, dim_sales_method_names_nodup df⟩,
    dim_retailer_ids_mem df⟩
  · rw [dim_region_ids, length_dedupBy_id]
  · have hlen : (dedupBy id (statePrepMerged df)).length =
        (df.map fun r => (r.state, r.region)).dedup.length := by
      rw [dedup_statePrepMerged, statePrepMerged_eq_map, List.length_map]
      unfold df_state_prep
      exact length_dedupBy_id _
    rw [dim_state_ids_raw, hlen]
  · rw [dim_city_ids_raw, ← dim_city_length]
  · have hlen : (dedupBy Prod.fst
        (df.map fun r => (r.product, r.price_per_unit))).length =
        (df.map Row.product).dedup.length := by
      rw [length_dedupBy_key, List.map_map]
      rfl
    rw [dim_product_ids, hlen]
  · rw [dim_sales_method_ids, length_dedupBy_id]

/-- C4: the transformation is a pure function of the cleaned input
frame, so two runs on identical input produce identical dimension and
fact tables — the same surrogate keys for the same natural keys and the
same rows in the same order. -/
theorem transform_deterministic (df₁ df₂ : List Row) (h : df₁ = df₂) :
    buildTables df₁ = buildTables df₂ := by
  rw [h]

theorem transform_deterministic_witness : buildTables ex3 = buildTables ex3 :=
  transform_deterministic ex3 ex3 rfl

/-- C5 counterexample: on `exDup` (2 input rows, one state name under
two regions) the fact table has 4 rows numbered 1..4, so the
transaction_id column is NOT 1..N for the N input rows. -/
theorem transaction_id_not_input_indexed :
    ¬ ((fact_table exDup).map FactRow.transaction_id =
        List.range' 1 exDup.length) := by
  decide

/-- C5 (amended): transaction_id is the 1-based position in the produced
fact sequence — the column always equals 1..M for the M produced fact
rows — and only when every dimension lookup resolves uniquely is M = N,
giving the i-th input row transaction_id i. -/
theorem transaction_id_positional (df : List Row) :
    (fact_table df).map FactRow.transaction_id =
      List.range' 1 (fact_table df).length ∧
    (uniqueResolution df → (fact_table df).length = df.length) :=
  ⟨fact_table_tids df, fun h => fact_table_length_of_unique h⟩

theorem transaction_id_positional_witness :
    (fact_table ex3).map FactRow.transaction_id = List.range' 1 3 ∧
    (fact_table ex3).length = 3 := by
  have h := transaction_id_positional ex3
  have hlen : (fact_table ex3).length = 3 := h.2 (by decide)
  exact ⟨hlen ▸ h.1, hlen⟩

/-- C6: no produced fact row carries a missing foreign key (because each
dimension is derived from the same input, every left-merge lookup finds
at least one match, so the set of rows excludable for an unresolved key
is empty), and the only error the transformation body ever signals is
the schema one — an unresolved foreign key never aborts the run. -/
theorem no_unresolved_fk_in_fact :
    (∀ (df : List Row), ∀ fr ∈ fact_table df,
      fr.city_id.isSome = true ∧ fr.product_id.isSome = true ∧
      fr.sales_method_id.isSome = true ∧ fr.region_id.isSome = true) ∧
    (∀ (f : RawFrame) (e : PipelineError),
      runTransform f = Except.error e → e = PipelineError.schemaMismatch) := by
  constructor
  · intro df fr h
    exact fact_fk_some h
  · intro f e h
    unfold runTransform at h
    by_cases hc : ((requiredCols.all fun c =>
        (effectiveCols f.cols).contains c) && f.datesCoercible) = true
    · rw [if_pos hc] at h
      cases h
    · rw [if_neg hc] at h
      injection h with h'
      exact h'.symm

theorem no_unresolved_fk_in_fact_witness :
    (fr0.city_id.isSome = true ∧ fr0.product_id.isSome = true ∧
      fr0.sales_method_id.isSome = true ∧ fr0.region_id.isSome = true) ∧
    PipelineError.schemaMismatch = PipelineError.schemaMismatch :=
  ⟨no_unresolved_fk_in_fact.1 ex3 fr0 (by decide),
   no_unresolved_fk_in_fact.2 rawMissing PipelineError.schemaMismatch (by decide)⟩

/-- C7: when a required column is absent after the rename/normalization
of lines 61-62, or the invoice-date column does not coerce, the
transformation body fails with the SchemaMismatch-class error before any
table is built, and no destination table is written. -/
theorem schema_mismatch_aborts_before_writes (f : RawFrame)
    (h : ((requiredCols.all fun c => (effectiveCols f.cols).contains c) &&
      f.datesCoercible) = false) :
    runTransform f = Except.error PipelineError.schemaMismatch ∧
      writtenTables f = [] := by
  have hr : runTransform f = Except.error PipelineError.schemaMismatch := by
    have hne : ¬(((requiredCols.all fun c =>
        (effectiveCols f.cols).contains c) && f.datesCoercible) = true) := by
      rw [h]
      exact Bool.false_ne_true
    unfold runTransform
    rw [if_neg hne]
  refine ⟨hr, ?_⟩
  unfold writtenTables
  rw [hr]

theorem schema_mismatch_aborts_before_writes_witness :
    runTransform rawMissing = Except.error PipelineError.schemaMismatch ∧
      writtenTables rawMissing = [] :=
  schema_mismatch_aborts_before_writes rawMissing (by decide)

/-- C8 counterexample: on `exConflict` (product "Shoes" at prices 50 and
55) the product dimension keeps a single row with the first price, but
the run's data-quality warning list is empty — the conflict is NOT
logged, refuting the claim's logging clause at this input. -/
theorem product_conflict_not_logged :
    (dim_product exConflict).map (fun d => (d.product_name, d.price_per_unit)) =
      [("Shoes", 50)] ∧ dataQualityWarnings exConflict = [] :=
  ⟨by decide, rfl⟩

/-- C8 (amended): for a product name appearing in the input — also with
two different prices — the product dimension holds exactly one row for
that name carrying the first-encountered price, and the run does not
fail; but no data-quality warning is logged, the conflict being resolved
silently. -/
theorem product_first_price_policy (df : List Row) (n : String)
    (h : n ∈ df.map Row.product) :
    (∃ p : Int, firstPriceOf df n = some p ∧
      ((dim_product df).filter fun d => n == d.product_name).map
        (fun d => (d.product_name, d.price_per_unit)) = [(n, p)]) ∧
    dataQualityWarnings df = [] := by
  rcases product_first_price h with ⟨p, hp, d, hd, hdn, hdp, hfil⟩
  refine ⟨⟨p, hp, ?_⟩, rfl⟩
  rw [hfil]
  simp [hdn, hdp]

theorem product_first_price_policy_witness :
    ∃ p : Int, firstPriceOf exConflict "Shoes" = some p ∧
      ((dim_product exConflict).filter fun d => "Shoes" == d.product_name).map
        (fun d => (d.product_name, d.price_per_unit)) = [("Shoes", p)] :=
  (product_first_price_policy exConflict "Shoes" (by decide)).1

/-- C9 counterexample: on `exRetailer` (retailer id "1" under two
different names) the retailer dimension has TWO rows with retailer_id
"1", refuting "at most one row per retailer_id". -/
theorem retailer_id_duplicated :
    (dim_retailer exRetailer).map RetailerRow.retailer_id = ["1", "1"] ∧
    ¬ ((dim_retailer exRetailer).map RetailerRow.retailer_id).Nodup :=
  ⟨by decide, by decide⟩

/-- C9 (amended): the retailer dimension de-duplicates on the full
(retailer_id, retailer_name) pair — those pairs never repeat — but the
retailer_id alone may repeat when one id arrives under two names. -/
theorem retailer_pair_uniqueness (df : List Row) :
    ((dim_retailer df).map fun d => (d.retailer_id, d.retailer_name)).Nodup := by
  rw [dim_retailer_pairs]
  exact nodup_dedupBy_id _

/-- C10: whatever the body of `transform_data` does — succeed or raise
any pipeline failure — the entry point propagates nothing to the caller,
returns no value (Python None), logs the caught error, and disposes the
engine in the finally block. -/
theorem transform_entry_never_propagates (body : Except PipelineError Tables)
    (e : PipelineError) :
    (transform_data_entry body).propagated = none ∧
    (transform_data_entry body).returnValue = none ∧
    (transform_data_entry body).engineDisposed = true ∧
    (transform_data_entry (Except.error e)).logged = [e] := by
  refine ⟨?_, ?_, ?_, rfl⟩ <;> cases body <;> rfl

end SportsStore
